import Mathlib

/-!
Verification development for the Small Dams dashboard (src/app.py).

The file shallowly embeds the two functions with real logic,
`to_csv_url` and `load_sheet`, together with the module-level
filtering/aggregation code (`df_day`, `df_view`, the four KPI metrics),
and proves the frozen claims about them.

Python strings are modelled as `List Char` (with `String` wrappers at the
interface), pandas cells as an explicit option-like `Cell` type, pandas
DataFrames as a header list plus positionally aligned rows, and Python
floats as `ℚ` (exact decimal arithmetic; the decimal literals compared by
the claims are represented exactly on both sides).
-/

namespace SmallDams

/-! ## Python string primitives -/

/-- Whitespace characters removed by Python's `str.strip()` (ASCII subset;
    the exotic unicode space characters are outside the modelled scope). -/
def isPySpace (c : Char) : Bool :=
  c = ' ' || c = '\t' || c = '\n' || c = '\r' || c = '\x0b' || c = '\x0c'

/-- Python `str.strip()`: drop leading and trailing whitespace. -/
def pyStrip (l : List Char) : List Char :=
  ((l.dropWhile isPySpace).reverse.dropWhile isPySpace).reverse

/-- Boolean test that `p` is a prefix of `l`. -/
def seqPrefixB : List Char → List Char → Bool
  | [], _ => true
  | _ :: _, [] => false
  | a :: as, b :: bs => a = b && seqPrefixB as bs

/-- Boolean substring test, modelling Python's `in` on strings. -/
def containsSeq (p : List Char) : List Char → Bool
  | [] => seqPrefixB p []
  | c :: rest => seqPrefixB p (c :: rest) || containsSeq p rest

/-- Python `s.split(sep)` for a one-character separator: always returns a
    nonempty list of (possibly empty) segments. -/
def splitOnChar (sep : Char) : List Char → List (List Char)
  | [] => [[]]
  | c :: rest =>
    match splitOnChar sep rest with
    | [] => [[]]
    | h :: t => if c = sep then [] :: h :: t else (c :: h) :: t

/-- Everything strictly before the first occurrence of `sep` (the whole
    list when `sep` does not occur). -/
def takeBeforeChar (sep : Char) : List Char → List Char
  | [] => []
  | c :: rest => if c = sep then [] else c :: takeBeforeChar sep rest

/-- Everything strictly after the first occurrence of `sep` (empty when
    `sep` does not occur). -/
def afterChar (sep : Char) : List Char → List Char
  | [] => []
  | c :: rest => if c = sep then rest else afterChar sep rest

/-- Value of a hexadecimal digit. -/
def hexVal (c : Char) : Option ℕ :=
  if '0' ≤ c ∧ c ≤ '9' then some (c.toNat - 48)
  else if 'a' ≤ c ∧ c ≤ 'f' then some (c.toNat - 87)
  else if 'A' ≤ c ∧ c ≤ 'F' then some (c.toNat - 55)
  else none

/-- Percent-decoding as in `urllib.parse.unquote`, modelled byte-by-byte
    (multi-byte UTF-8 escape sequences are outside the modelled scope;
    invalid escapes are left in place, as in Python). -/
def percentDecode : List Char → List Char
  | [] => []
  | c :: a :: b :: rest2 =>
    if c = '%' then
      match hexVal a, hexVal b with
      | some x, some y => Char.ofNat (16 * x + y) :: percentDecode rest2
      | _, _ => '%' :: percentDecode (a :: b :: rest2)
    else c :: percentDecode (a :: b :: rest2)
  | c :: rest =>
    if c = '%' then '%' :: percentDecode rest else c :: percentDecode rest

/-- Models `urllib.parse.unquote_plus`: `+` becomes a space, then
    percent-escapes are decoded. -/
def unquotePlus (l : List Char) : List Char :=
  percentDecode (l.map fun c => if c = '+' then ' ' else c)

/-! ## `to_csv_url` (the Source Resolver, src/app.py lines 23-61) -/

/-- Query component of a URL as `urllib.parse.urlparse` extracts it: the
    text after the first `?` of the part before the first `#`. -/
def queryOf (u : List Char) : List Char :=
  afterChar '?' (takeBeforeChar '#' u)

/-- First `gid` value of a query string, as
    `parse_qs(query)["gid"][0]` computes it: fields are split on `&`,
    fields without `=` or with an empty raw value are dropped, keys and
    values are unquoted. -/
def firstGidValue : List (List Char) → Option (List Char)
  | [] => none
  | f :: rest =>
    if '=' ∈ f then
      if afterChar '=' f ≠ [] ∧ unquotePlus (takeBeforeChar '=' f) = "gid".data then
        some (unquotePlus (afterChar '=' f))
      else firstGidValue rest
    else firstGidValue rest

/-- The preserved sheet selector of a URL (`qs_gid` in `to_csv_url`). -/
def gidOf (u : List Char) : Option (List Char) :=
  firstGidValue (splitOnChar '&' (queryOf u))

/-- Document identifier extraction: `u.split("/")[5]`, `none` exactly when
    the index raises `IndexError` in the Python source. -/
def docIdOf (u : List Char) : Option (List Char) :=
  (splitOnChar '/' u).get? 5

/-- Constructed export endpoint without a sheet selector. -/
def exportUrlOf (docId : List Char) : List Char :=
  "https://docs.google.com/spreadsheets/d/".data ++ docId ++ "/export?format=csv".data

/-- Constructed export endpoint carrying a sheet selector. -/
def exportUrlGidOf (docId gid : List Char) : List Char :=
  "https://docs.google.com/spreadsheets/d/".data ++ docId
    ++ "/export?format=csv&gid=".data ++ gid

/-- Direct export/publish markers recognised by `to_csv_url`. -/
def containsMarker (u : List Char) : Bool :=
  containsSeq "output=csv".data u || containsSeq "format=csv".data u

/-- Core of `to_csv_url` on character lists, translated line by line from
    src/app.py lines 23-61 (`pyStrip s` plays the role of the local `u`;
    the `if g = []` test mirrors Python's truthiness test `if qs_gid:`). -/
def toCsvUrlCore (s : List Char) : List Char :=
  if s = [] then []
  else if containsMarker (pyStrip s) then pyStrip s
  else
    match docIdOf (pyStrip s) with
    | none => pyStrip s
    | some docId =>
      match gidOf (pyStrip s) with
      | some g => if g = [] then exportUrlOf docId else exportUrlGidOf docId g
      | none => exportUrlOf docId

/-- The Source Resolver `to_csv_url` of src/app.py. -/
def to_csv_url (s : String) : String :=
  String.mk (toCsvUrlCore s.data)

/-- String-level `strip`. -/
def pyStripS (s : String) : String :=
  String.mk (pyStrip s.data)

/-! ## Lemmas about the string primitives -/

theorem dropWhile_head?_false {α : Type} (p : α → Bool) (l : List α) {c : α}
    (h : (l.dropWhile p).head? = some c) : p c = false := by
  induction l with
  | nil => simp [List.dropWhile] at h
  | cons a t ih =>
    rw [List.dropWhile_cons] at h
    by_cases hp : p a
    · rw [if_pos hp] at h; exact ih h
    · rw [if_neg hp] at h
      simp only [List.head?_cons, Option.some.injEq] at h
      subst h; simpa using hp

theorem dropWhile_eq_self {α : Type} (p : α → Bool) (l : List α)
    (h : ∀ c, l.head? = some c → p c = false) : l.dropWhile p = l := by
  cases l with
  | nil => rfl
  | cons a t =>
    rw [List.dropWhile_cons, if_neg]
    simp [h a rfl]

theorem dropWhile_dropWhile_same {α : Type} (p : α → Bool) (l : List α) :
    (l.dropWhile p).dropWhile p = l.dropWhile p := by
  apply dropWhile_eq_self
  intro c hc
  exact dropWhile_head?_false p l hc

theorem getLast?_of_suffix {α : Type} {l₁ l₂ : List α} (h : l₁ <:+ l₂)
    (hne : l₁ ≠ []) : l₂.getLast? = l₁.getLast? := by
  rcases h with ⟨pre, rfl⟩
  rw [List.getLast?_append]
  cases hl : l₁.getLast? with
  | none => exact absurd (List.getLast?_eq_none_iff.mp hl) hne
  | some c => rfl

theorem pyStrip_eq_self {l : List Char}
    (h1 : ∀ c, l.head? = some c → isPySpace c = false)
    (h2 : ∀ c, l.getLast? = some c → isPySpace c = false) :
    pyStrip l = l := by
  unfold pyStrip
  rw [dropWhile_eq_self _ _ h1]
  rw [dropWhile_eq_self _ _ (fun c hc => h2 c (by rwa [List.head?_reverse] at hc))]
  exact List.reverse_reverse l

theorem pyStrip_idem (l : List Char) : pyStrip (pyStrip l) = pyStrip l := by
  have hfix : pyStrip l = ((l.dropWhile isPySpace).reverse.dropWhile isPySpace).reverse := rfl
  rw [hfix]
  apply pyStrip_eq_self
  · intro c hc
    rw [List.head?_reverse] at hc
    have hBne : (l.dropWhile isPySpace).reverse.dropWhile isPySpace ≠ [] := by
      intro h; rw [h] at hc; simp at hc
    have hsuf : (l.dropWhile isPySpace).reverse.dropWhile isPySpace <:+
        (l.dropWhile isPySpace).reverse := List.dropWhile_suffix isPySpace
    have hlast := getLast?_of_suffix hsuf hBne
    rw [List.getLast?_reverse] at hlast
    rw [← hlast] at hc
    exact dropWhile_head?_false isPySpace l hc
  · intro c hc
    rw [List.getLast?_reverse] at hc
    exact dropWhile_head?_false isPySpace (l.dropWhile isPySpace).reverse hc

theorem infix_dropWhile_of_no_space {α : Type} (p : α → Bool) (pat l : List α)
    (hne : pat ≠ []) (hpat : ∀ c ∈ pat, p c = false)
    (h : pat <:+: l) : pat <:+: l.dropWhile p := by
  induction l with
  | nil =>
    rw [List.infix_nil] at h
    exact absurd h hne
  | cons a t ih =>
    rw [List.dropWhile_cons]
    by_cases hp : p a
    · rw [if_pos hp]
      apply ih
      rcases List.infix_cons_iff.mp h with hpre | hinf
      · rcases pat with _ | ⟨b, bs⟩
        · exact absurd rfl hne
        · rw [List.cons_prefix_cons] at hpre
          have hb := hpat b (by simp)
          rw [hpre.1] at hb
          rw [hb] at hp
          cases hp
      · exact hinf
    · rw [if_neg hp]; exact h

theorem infix_reverse_of_infix {α : Type} {pat l : List α} (h : pat <:+: l) :
    pat.reverse <:+: l.reverse := by
  rcases h with ⟨s, t, rfl⟩
  exact ⟨t.reverse, s.reverse, by simp⟩

theorem infix_pyStrip_of_no_space {pat l : List Char} (hne : pat ≠ [])
    (hpat : ∀ c ∈ pat, isPySpace c = false) (h : pat <:+: l) :
    pat <:+: pyStrip l := by
  unfold pyStrip
  have h1 : pat <:+: l.dropWhile isPySpace :=
    infix_dropWhile_of_no_space _ _ _ hne hpat h
  have h2 := infix_reverse_of_infix h1
  have h3 : pat.reverse <:+: (l.dropWhile isPySpace).reverse.dropWhile isPySpace := by
    apply infix_dropWhile_of_no_space _ _ _ _ _ h2
    · simpa using hne
    · intro c hc
      exact hpat c (by simpa using hc)
  have h4 := infix_reverse_of_infix h3
  simpa using h4

theorem seqPrefixB_iff (p l : List Char) : seqPrefixB p l = true ↔ p <+: l := by
  induction p generalizing l with
  | nil => simp [seqPrefixB]
  | cons a as ih =>
    cases l with
    | nil => simp [seqPrefixB]
    | cons b bs =>
      rw [List.cons_prefix_cons]
      simp [seqPrefixB, ih]

theorem containsSeq_iff (p l : List Char) : containsSeq p l = true ↔ p <:+: l := by
  induction l with
  | nil => simp [containsSeq, seqPrefixB_iff]
  | cons c rest ih =>
    rw [List.infix_cons_iff]
    simp [containsSeq, seqPrefixB_iff, ih]

theorem containsMarker_pyStrip {l : List Char} (h : containsMarker l = true) :
    containsMarker (pyStrip l) = true := by
  unfold containsMarker at h ⊢
  rcases Bool.or_eq_true_iff.mp h with h1 | h1
  · apply Bool.or_eq_true_iff.mpr
    left
    rw [containsSeq_iff] at h1 ⊢
    exact infix_pyStrip_of_no_space (by decide) (by decide) h1
  · apply Bool.or_eq_true_iff.mpr
    right
    rw [containsSeq_iff] at h1 ⊢
    exact infix_pyStrip_of_no_space (by decide) (by decide) h1

/-! ## Branch lemmas for `toCsvUrlCore` -/

theorem toCsvUrlCore_of_marker {s : List Char}
    (h : containsMarker (pyStrip s) = true) : toCsvUrlCore s = pyStrip s := by
  by_cases hs : s = []
  · subst hs; rfl
  · unfold toCsvUrlCore
    rw [if_neg hs, if_pos h]

theorem toCsvUrlCore_of_fail {s : List Char}
    (hm : containsMarker (pyStrip s) = false)
    (hd : docIdOf (pyStrip s) = none) : toCsvUrlCore s = pyStrip s := by
  by_cases hs : s = []
  · subst hs; rfl
  · unfold toCsvUrlCore
    rw [if_neg hs, if_neg (by simp [hm]), hd]

theorem toCsvUrlCore_of_docId {s : List Char} (hs : s ≠ [])
    (hm : containsMarker (pyStrip s) = false) {d : List Char}
    (hd : docIdOf (pyStrip s) = some d) :
    toCsvUrlCore s =
      match gidOf (pyStrip s) with
      | some g => if g = [] then exportUrlOf d else exportUrlGidOf d g
      | none => exportUrlOf d := by
  unfold toCsvUrlCore
  rw [if_neg hs, if_neg (by simp [hm]), hd]

theorem marker_in_exportUrlOf (d : List Char) :
    containsMarker (exportUrlOf d) = true := by
  unfold containsMarker
  apply Bool.or_eq_true_iff.mpr
  right
  rw [containsSeq_iff]
  refine ⟨"https://docs.google.com/spreadsheets/d/".data ++ d ++ "/export?".data,
    [], ?_⟩
  have hsplit : "/export?format=csv".data = "/export?".data ++ "format=csv".data := by
    decide
  unfold exportUrlOf
  rw [hsplit]
  simp [List.append_assoc]

theorem marker_in_exportUrlGidOf (d g : List Char) :
    containsMarker (exportUrlGidOf d g) = true := by
  unfold containsMarker
  apply Bool.or_eq_true_iff.mpr
  right
  rw [containsSeq_iff]
  refine ⟨"https://docs.google.com/spreadsheets/d/".data ++ d ++ "/export?".data,
    "&gid=".data ++ g, ?_⟩
  have hsplit : "/export?format=csv&gid=".data =
      "/export?".data ++ "format=csv".data ++ "&gid=".data := by decide
  unfold exportUrlGidOf
  rw [hsplit]
  simp [List.append_assoc]

theorem exportUrlOf_ne_nil (d : List Char) : exportUrlOf d ≠ [] := by
  unfold exportUrlOf
  intro h
  have := congrArg List.length h
  simp [List.length_append] at this

theorem exportUrlGidOf_ne_nil (d g : List Char) : exportUrlGidOf d g ≠ [] := by
  unfold exportUrlGidOf
  intro h
  have := congrArg List.length h
  simp [List.length_append] at this

theorem toCsvUrlCore_again (s : List Char) :
    toCsvUrlCore (toCsvUrlCore s) = pyStrip (toCsvUrlCore s) := by
  by_cases hs : s = []
  · subst hs; rfl
  by_cases hm : containsMarker (pyStrip s) = true
  · rw [toCsvUrlCore_of_marker hm, pyStrip_idem]
    have hm2 : containsMarker (pyStrip (pyStrip s)) = true := by
      rw [pyStrip_idem]; exact hm
    rw [toCsvUrlCore_of_marker hm2, pyStrip_idem]
  · rw [Bool.not_eq_true] at hm
    cases hd : docIdOf (pyStrip s) with
    | none =>
      rw [toCsvUrlCore_of_fail hm hd, pyStrip_idem]
      by_cases h0 : pyStrip s = []
      · rw [h0]; rfl
      · have hm2 : containsMarker (pyStrip (pyStrip s)) = false := by
          rw [pyStrip_idem]; exact hm
        have hd2 : docIdOf (pyStrip (pyStrip s)) = none := by
          rw [pyStrip_idem]; exact hd
        rw [toCsvUrlCore_of_fail hm2 hd2, pyStrip_idem]
    | some d =>
      rw [toCsvUrlCore_of_docId hs hm hd]
      cases hg : gidOf (pyStrip s) with
      | none =>
        exact toCsvUrlCore_of_marker (containsMarker_pyStrip (marker_in_exportUrlOf d))
      | some g =>
        show toCsvUrlCore (if g = [] then exportUrlOf d else exportUrlGidOf d g) =
          pyStrip (if g = [] then exportUrlOf d else exportUrlGidOf d g)
        by_cases hg0 : g = []
        · rw [if_pos hg0]
          exact toCsvUrlCore_of_marker (containsMarker_pyStrip (marker_in_exportUrlOf d))
        · rw [if_neg hg0]
          exact toCsvUrlCore_of_marker
            (containsMarker_pyStrip (marker_in_exportUrlGidOf d g))

/-! ## Claims C4 and C10 (the Source Resolver) -/

/-- C4, counterexample. The claim says a marker-containing input is
    returned unchanged; the code first strips surrounding whitespace, so
    the marker-containing input `" x?output=csv"` comes back trimmed,
    not unchanged. -/
theorem c4_unchanged_counterexample :
    to_csv_url " x?output=csv" = "x?output=csv" ∧
      (" x?output=csv" : String) ≠ "x?output=csv" := by
  constructor
  · decide
  · decide

/-- C4, amended. For every input string: if the input contains a direct
    export/publish marker (`output=csv` or `format=csv`), the input
    trimmed of surrounding whitespace is returned (hence the input itself
    whenever it carries no surrounding whitespace); if document-identifier
    extraction fails (`u.split("/")` has no index 5), the trimmed input is
    returned; and the function is total, so it never raises for malformed
    input. -/
theorem c4_resolver_passthrough (s : String) :
    (containsMarker s.data = true → to_csv_url s = pyStripS s) ∧
    (containsMarker (pyStrip s.data) = false →
      docIdOf (pyStrip s.data) = none → to_csv_url s = pyStripS s) := by
  constructor
  · intro h
    show String.mk (toCsvUrlCore s.data) = String.mk (pyStrip s.data)
    rw [toCsvUrlCore_of_marker (containsMarker_pyStrip h)]
  · intro hm hd
    show String.mk (toCsvUrlCore s.data) = String.mk (pyStrip s.data)
    rw [toCsvUrlCore_of_fail hm hd]

/-- C4, witness: both hypotheses discharged at concrete inputs. -/
theorem c4_resolver_passthrough_witness :
    to_csv_url "x?output=csv" = pyStripS "x?output=csv" ∧
      to_csv_url "not a url" = pyStripS "not a url" :=
  ⟨(c4_resolver_passthrough "x?output=csv").1 (by decide),
   (c4_resolver_passthrough "not a url").2 (by decide) (by decide)⟩

/-- C10, counterexample. `to_csv_url` is not idempotent: when the
    preserved `gid` value carries trailing whitespace (here a literal
    space before the URL fragment), the constructed export endpoint ends
    in whitespace, and the second application strips it. -/
theorem c10_idempotent_counterexample :
    to_csv_url (to_csv_url "https://docs.google.com/spreadsheets/d/A/edit?gid=7 #x") ≠
      to_csv_url "https://docs.google.com/spreadsheets/d/A/edit?gid=7 #x" := by
  decide

/-- C10, amended. Every output of `to_csv_url` is a fixed point up to
    whitespace trimming: `to_csv_url (to_csv_url s) = strip (to_csv_url s)`
    for every input `s`. In particular every output carrying no
    surrounding whitespace (every output except an export endpoint whose
    preserved `gid` value has leading/trailing whitespace) is an exact
    fixed point. -/
theorem c10_resolver_trim_fixed_point (s : String) :
    to_csv_url (to_csv_url s) = pyStripS (to_csv_url s) := by
  show String.mk (toCsvUrlCore (toCsvUrlCore s.data)) =
    String.mk (pyStrip (toCsvUrlCore s.data))
  rw [toCsvUrlCore_again]

/-! ## Lemmas about splitting and query parsing -/

theorem splitOnChar_ne_nil (sep : Char) : ∀ l, splitOnChar sep l ≠ []
  | [] => by simp [splitOnChar]
  | c :: rest => by
    unfold splitOnChar
    cases h : splitOnChar sep rest with
    | nil => simp
    | cons a t => by_cases hc : c = sep <;> simp [hc]

theorem splitOnChar_cons (sep c : Char) (l : List Char) :
    splitOnChar sep (c :: l) =
      match splitOnChar sep l with
      | [] => [[]]
      | h :: t => if c = sep then [] :: h :: t else (c :: h) :: t := rfl

theorem splitOnChar_cons_sep (sep : Char) (l : List Char) :
    splitOnChar sep (sep :: l) = [] :: splitOnChar sep l := by
  rw [splitOnChar_cons]
  cases hh : splitOnChar sep l with
  | nil => exact absurd hh (splitOnChar_ne_nil sep l)
  | cons a t => simp

theorem splitOnChar_of_no_sep (sep : Char) (l : List Char) (h : sep ∉ l) :
    splitOnChar sep l = [l] := by
  induction l with
  | nil => rfl
  | cons c cs ih =>
    have hc : c ≠ sep := fun hcc => h (by simp [hcc])
    have hcs : sep ∉ cs := fun hin => h (by simp [hin])
    rw [splitOnChar_cons, ih hcs]
    simp [hc]

theorem splitOnChar_append_sep (sep : Char) (l₁ l₂ : List Char) (h : sep ∉ l₁) :
    splitOnChar sep (l₁ ++ sep :: l₂) = l₁ :: splitOnChar sep l₂ := by
  induction l₁ with
  | nil =>
    rw [List.nil_append]
    exact splitOnChar_cons_sep sep l₂
  | cons c cs ih =>
    have hc : c ≠ sep := fun hcc => h (by simp [hcc])
    have hcs : sep ∉ cs := fun hin => h (by simp [hin])
    rw [List.cons_append, splitOnChar_cons, ih hcs]
    simp [hc]

theorem takeBeforeChar_of_no_sep (sep : Char) (l : List Char) (h : sep ∉ l) :
    takeBeforeChar sep l = l := by
  induction l with
  | nil => rfl
  | cons c cs ih =>
    have hc : c ≠ sep := fun hcc => h (by simp [hcc])
    have hcs : sep ∉ cs := fun hin => h (by simp [hin])
    unfold takeBeforeChar
    rw [if_neg hc, ih hcs]

theorem takeBeforeChar_append_sep (sep : Char) (l₁ l₂ : List Char) (h : sep ∉ l₁) :
    takeBeforeChar sep (l₁ ++ sep :: l₂) = l₁ := by
  induction l₁ with
  | nil =>
    rw [List.nil_append]
    unfold takeBeforeChar
    rw [if_pos rfl]
  | cons c cs ih =>
    have hc : c ≠ sep := fun hcc => h (by simp [hcc])
    have hcs : sep ∉ cs := fun hin => h (by simp [hin])
    rw [List.cons_append]
    unfold takeBeforeChar
    rw [if_neg hc, ih hcs]

theorem afterChar_append_sep (sep : Char) (l₁ l₂ : List Char) (h : sep ∉ l₁) :
    afterChar sep (l₁ ++ sep :: l₂) = l₂ := by
  induction l₁ with
  | nil =>
    rw [List.nil_append]
    unfold afterChar
    rw [if_pos rfl]
  | cons c cs ih =>
    have hc : c ≠ sep := fun hcc => h (by simp [hcc])
    have hcs : sep ∉ cs := fun hin => h (by simp [hin])
    rw [List.cons_append]
    unfold afterChar
    rw [if_neg hc, ih hcs]

theorem percentDecode_of_no_pct : ∀ l : List Char, '%' ∉ l → percentDecode l = l
  | [], _ => rfl
  | [c], h => by
    have hc : c ≠ '%' := fun hcc => h (by simp [hcc])
    show (if c = '%' then '%' :: percentDecode [] else c :: percentDecode []) = [c]
    rw [if_neg hc]
    rfl
  | [c, d], h => by
    have hc : c ≠ '%' := fun hcc => h (by simp [hcc])
    have hd : '%' ∉ [d] := fun hin => h (by simp at hin ⊢; right; exact hin)
    show (if c = '%' then '%' :: percentDecode [d] else c :: percentDecode [d]) = [c, d]
    rw [if_neg hc, percentDecode_of_no_pct [d] hd]
  | c :: a :: b :: r, h => by
    have hc : c ≠ '%' := fun hcc => h (by simp [hcc])
    have hrest : '%' ∉ a :: b :: r := fun hin => h (by simp [hin])
    show (if c = '%' then
        (match hexVal a, hexVal b with
         | some x, some y => Char.ofNat (16 * x + y) :: percentDecode r
         | _, _ => '%' :: percentDecode (a :: b :: r))
      else c :: percentDecode (a :: b :: r)) = c :: a :: b :: r
    rw [if_neg hc, percentDecode_of_no_pct (a :: b :: r) hrest]

theorem map_plus_eq_self {l : List Char} (hp : '+' ∉ l) :
    (l.map fun c => if c = '+' then ' ' else c) = l := by
  induction l with
  | nil => rfl
  | cons c cs ih =>
    have hc : c ≠ '+' := fun hcc => hp (by simp [hcc])
    have hcs : '+' ∉ cs := fun hin => hp (by simp [hin])
    simp only [List.map_cons, if_neg hc]
    rw [ih hcs]

theorem unquotePlus_of_plain {l : List Char} (hp : '+' ∉ l) (hq : '%' ∉ l) :
    unquotePlus l = l := by
  unfold unquotePlus
  rw [map_plus_eq_self hp]
  exact percentDecode_of_no_pct l hq

/-- Character-class predicate for the canonical-URL theorem (C8): a
    character that is not a URL delimiter, not subject to query
    unquoting, and not whitespace. Plausible document identifiers and
    sheet selectors consist of such characters. -/
def plainChar (c : Char) : Bool :=
  !(c = '/' || c = '?' || c = '#' || c = '&' || c = '=' ||
    c = '+' || c = '%' || isPySpace c)

/-- All characters of the token satisfy `plainChar`. -/
def plainToken (l : List Char) : Bool :=
  l.all plainChar

theorem plainToken_not_mem {l : List Char} (h : plainToken l = true) {c : Char}
    (hc : plainChar c = false) : c ∉ l := by
  intro hin
  rw [plainToken, List.all_eq_true] at h
  have hcc := h c hin
  rw [hcc] at hc
  cases hc

theorem plainChar_not_space {c : Char} (h : plainChar c = true) :
    isPySpace c = false := by
  simp only [plainChar, Bool.not_eq_true', Bool.or_eq_false_iff] at h
  exact h.2

theorem plainToken_not_space {l : List Char} (h : plainToken l = true) {c : Char}
    (hc : c ∈ l) : isPySpace c = false := by
  rw [plainToken, List.all_eq_true] at h
  exact plainChar_not_space (h c hc)

/-! ## Claim C8 (canonical share links) -/

theorem data_append (a b : String) : (a ++ b).data = a.data ++ b.data := rfl

/-- Canonical share link carrying a sheet-selector query parameter. -/
def shareUrlGid (i g : String) : String :=
  "https://docs.google.com/spreadsheets/d/" ++ i ++ "/edit?gid=" ++ g

/-- Canonical share link without a sheet selector. -/
def shareUrlPlain (i : String) : String :=
  "https://docs.google.com/spreadsheets/d/" ++ i ++ "/edit?usp=sharing"

/-- Expected export endpoint without a selector (defaults to the first
    sheet, no `gid` parameter). -/
def exportUrlS (i : String) : String :=
  "https://docs.google.com/spreadsheets/d/" ++ i ++ "/export?format=csv"

/-- Expected export endpoint carrying the preserved selector. -/
def exportUrlGidS (i g : String) : String :=
  "https://docs.google.com/spreadsheets/d/" ++ i ++ "/export?format=csv&gid=" ++ g

theorem splitOnChar_canonical (idl tail : List Char) (hid : '/' ∉ idl)
    (htail : '/' ∉ tail) :
    splitOnChar '/'
        ("https://docs.google.com/spreadsheets/d/".data ++ (idl ++ ('/' :: tail))) =
      ["https:".data, [], "docs.google.com".data, "spreadsheets".data, "d".data,
        idl, tail] := by
  have h1 : "https://docs.google.com/spreadsheets/d/".data ++ (idl ++ ('/' :: tail)) =
      "https:".data ++ ('/' :: ([] ++ ('/' :: ("docs.google.com".data ++ ('/' ::
        ("spreadsheets".data ++ ('/' :: ("d".data ++
          ('/' :: (idl ++ ('/' :: tail))))))))))) := rfl
  rw [h1]
  rw [splitOnChar_append_sep _ _ _ (by decide)]
  rw [splitOnChar_append_sep _ _ _ (by decide)]
  rw [splitOnChar_append_sep _ _ _ (by decide)]
  rw [splitOnChar_append_sep _ _ _ (by decide)]
  rw [splitOnChar_append_sep _ _ _ (by decide)]
  rw [splitOnChar_append_sep _ _ _ hid]
  rw [splitOnChar_of_no_sep _ _ htail]

/-- C8. For every canonical shared-document URL built from a document
    identifier and (optionally) a sheet selector made of plain URL
    characters, and not already containing an export marker, the resolver
    produces the export endpoint with the same document identifier; when a
    `gid` selector is present its value is carried over, and without one
    the endpoint carries no `gid` parameter (defaulting to the first
    sheet). -/
theorem c8_canonical_share_links (i g : String)
    (hid : plainToken i.data = true) (hg : plainToken g.data = true)
    (hgne : g ≠ "")
    (hm1 : containsMarker (shareUrlGid i g).data = false)
    (hm2 : containsMarker (shareUrlPlain i).data = false) :
    to_csv_url (shareUrlGid i g) = exportUrlGidS i g ∧
      to_csv_url (shareUrlPlain i) = exportUrlS i := by
  have hid_slash : '/' ∉ i.data := plainToken_not_mem hid (by decide)
  have hid_q : '?' ∉ i.data := plainToken_not_mem hid (by decide)
  have hid_hash : '#' ∉ i.data := plainToken_not_mem hid (by decide)
  have hg_hash : '#' ∉ g.data := plainToken_not_mem hg (by decide)
  have hg_amp : '&' ∉ g.data := plainToken_not_mem hg (by decide)
  have hg_plus : '+' ∉ g.data := plainToken_not_mem hg (by decide)
  have hg_pct : '%' ∉ g.data := plainToken_not_mem hg (by decide)
  have hg_slash : '/' ∉ g.data := plainToken_not_mem hg (by decide)
  have hgl_ne : g.data ≠ [] := by
    intro hh
    apply hgne
    cases g
    simp only at hh
    rw [hh]
  constructor
  · -- the link with a gid selector
    have hU : (shareUrlGid i g).data =
        "https://docs.google.com/spreadsheets/d/".data ++
          (i.data ++ ("/edit?gid=".data ++ g.data)) := by
      simp [shareUrlGid, data_append, List.append_assoc]
    have hne : (shareUrlGid i g).data ≠ [] := by
      rw [hU]
      intro hh
      have hh2 := congrArg List.head? hh
      rw [show ("https://docs.google.com/spreadsheets/d/".data ++
          (i.data ++ ("/edit?gid=".data ++ g.data))).head? = some 'h'
        from rfl] at hh2
      simp at hh2
    have hstrip : pyStrip (shareUrlGid i g).data = (shareUrlGid i g).data := by
      apply pyStrip_eq_self
      · intro c hc
        rw [hU] at hc
        rw [show ("https://docs.google.com/spreadsheets/d/".data ++
            (i.data ++ ("/edit?gid=".data ++ g.data))).head? = some 'h'
          from rfl] at hc
        injection hc with hc2
        rw [← hc2]
        decide
      · intro c hc
        rw [hU, List.getLast?_append, List.getLast?_append,
          List.getLast?_append] at hc
        cases hgl : g.data.getLast? with
        | none => exact absurd (List.getLast?_eq_none_iff.mp hgl) hgl_ne
        | some c2 =>
          rw [hgl] at hc
          simp only [Option.or_some] at hc
          injection hc with hc2
          rw [← hc2]
          exact plainToken_not_space hg (List.mem_of_getLast?_eq_some hgl)
    have hmarker : containsMarker (pyStrip (shareUrlGid i g).data) = false := by
      rw [hstrip]; exact hm1
    have htail_ne : '/' ∉ ("edit?gid=".data ++ g.data) := by
      intro hin
      rcases List.mem_append.mp hin with h1 | h1
      · revert h1; decide
      · exact hg_slash h1
    have hUsplit : (shareUrlGid i g).data =
        "https://docs.google.com/spreadsheets/d/".data ++
          (i.data ++ ('/' :: ("edit?gid=".data ++ g.data))) := by
      rw [hU]
      rfl
    have hdoc : docIdOf (pyStrip (shareUrlGid i g).data) = some i.data := by
      unfold docIdOf
      rw [hstrip, hUsplit,
        splitOnChar_canonical i.data _ hid_slash htail_ne]
      rfl
    have hnohash : '#' ∉ (shareUrlGid i g).data := by
      rw [hU]
      intro hin
      rcases List.mem_append.mp hin with h1 | h1
      · revert h1; decide
      · rcases List.mem_append.mp h1 with h2 | h2
        · exact hid_hash h2
        · rcases List.mem_append.mp h2 with h3 | h3
          · revert h3; decide
          · exact hg_hash h3
    have hPq : '?' ∉ ("https://docs.google.com/spreadsheets/d/".data ++
        (i.data ++ "/edit".data)) := by
      intro hin
      rcases List.mem_append.mp hin with h1 | h1
      · revert h1; decide
      · rcases List.mem_append.mp h1 with h2 | h2
        · exact hid_q h2
        · revert h2; decide
    have hUq : (shareUrlGid i g).data =
        ("https://docs.google.com/spreadsheets/d/".data ++
          (i.data ++ "/edit".data)) ++ '?' :: ("gid=".data ++ g.data) := by
      rw [hU]
      rw [show "/edit?gid=".data = "/edit".data ++ ('?' :: "gid=".data)
        from by decide]
      simp [List.append_assoc]
    have hquery : queryOf (shareUrlGid i g).data = "gid=".data ++ g.data := by
      unfold queryOf
      rw [takeBeforeChar_of_no_sep _ _ hnohash, hUq,
        afterChar_append_sep _ _ _ hPq]
    have hamp : '&' ∉ ("gid=".data ++ g.data) := by
      intro hin
      rcases List.mem_append.mp hin with h1 | h1
      · revert h1; decide
      · exact hg_amp h1
    have hgid : gidOf (pyStrip (shareUrlGid i g).data) = some g.data := by
      unfold gidOf
      rw [hstrip, hquery, splitOnChar_of_no_sep _ _ hamp]
      unfold firstGidValue
      rw [if_pos (show '=' ∈ ("gid=".data ++ g.data) from
        List.mem_append.mpr (Or.inl (by decide)))]
      rw [show "gid=".data ++ g.data = "gid".data ++ '=' :: g.data from by
        rw [show "gid=".data = "gid".data ++ ['='] from by decide]
        simp [List.append_assoc]]
      rw [takeBeforeChar_append_sep _ _ _ (by decide),
        afterChar_append_sep _ _ _ (by decide)]
      rw [unquotePlus_of_plain hg_plus hg_pct]
      rw [show unquotePlus "gid".data = "gid".data from by decide]
      rw [if_pos ⟨hgl_ne, rfl⟩]
    show String.mk (toCsvUrlCore (shareUrlGid i g).data) = exportUrlGidS i g
    rw [toCsvUrlCore_of_docId hne hmarker hdoc, hgid]
    show String.mk (if g.data = [] then exportUrlOf i.data
      else exportUrlGidOf i.data g.data) = exportUrlGidS i g
    rw [if_neg hgl_ne]
    have hout : (exportUrlGidS i g).data = exportUrlGidOf i.data g.data := by
      simp [exportUrlGidS, exportUrlGidOf, data_append, List.append_assoc]
    exact (congrArg String.mk hout).symm
  · -- the link without a selector
    have hU : (shareUrlPlain i).data =
        "https://docs.google.com/spreadsheets/d/".data ++
          (i.data ++ "/edit?usp=sharing".data) := by
      simp [shareUrlPlain, data_append, List.append_assoc]
    have hne : (shareUrlPlain i).data ≠ [] := by
      rw [hU]
      intro hh
      have hh2 := congrArg List.head? hh
      rw [show ("https://docs.google.com/spreadsheets/d/".data ++
          (i.data ++ "/edit?usp=sharing".data)).head? = some 'h'
        from rfl] at hh2
      simp at hh2
    have hstrip : pyStrip (shareUrlPlain i).data = (shareUrlPlain i).data := by
      apply pyStrip_eq_self
      · intro c hc
        rw [hU] at hc
        rw [show ("https://docs.google.com/spreadsheets/d/".data ++
            (i.data ++ "/edit?usp=sharing".data)).head? = some 'h'
          from rfl] at hc
        injection hc with hc2
        rw [← hc2]
        decide
      · intro c hc
        rw [hU, List.getLast?_append, List.getLast?_append] at hc
        rw [show ("/edit?usp=sharing".data).getLast? = some 'g'
          from by decide] at hc
        simp only [Option.or_some] at hc
        injection hc with hc2
        rw [← hc2]
        decide
    have hmarker : containsMarker (pyStrip (shareUrlPlain i).data) = false := by
      rw [hstrip]; exact hm2
    have htail_ne : '/' ∉ "edit?usp=sharing".data := by decide
    have hUsplit : (shareUrlPlain i).data =
        "https://docs.google.com/spreadsheets/d/".data ++
          (i.data ++ ('/' :: "edit?usp=sharing".data)) := by
      rw [hU]
    have hdoc : docIdOf (pyStrip (shareUrlPlain i).data) = some i.data := by
      unfold docIdOf
      rw [hstrip, hUsplit,
        splitOnChar_canonical i.data _ hid_slash htail_ne]
      rfl
    have hnohash : '#' ∉ (shareUrlPlain i).data := by
      rw [hU]
      intro hin
      rcases List.mem_append.mp hin with h1 | h1
      · revert h1; decide
      · rcases List.mem_append.mp h1 with h2 | h2
        · exact hid_hash h2
        · revert h2; decide
    have hPq : '?' ∉ ("https://docs.google.com/spreadsheets/d/".data ++
        (i.data ++ "/edit".data)) := by
      intro hin
      rcases List.mem_append.mp hin with h1 | h1
      · revert h1; decide
      · rcases List.mem_append.mp h1 with h2 | h2
        · exact hid_q h2
        · revert h2; decide
    have hUq : (shareUrlPlain i).data =
        ("https://docs.google.com/spreadsheets/d/".data ++
          (i.data ++ "/edit".data)) ++ '?' :: "usp=sharing".data := by
      rw [hU]
      rw [show "/edit?usp=sharing".data =
        "/edit".data ++ ('?' :: "usp=sharing".data) from by decide]
      simp [List.append_assoc]
    have hquery : queryOf (shareUrlPlain i).data = "usp=sharing".data := by
      unfold queryOf
      rw [takeBeforeChar_of_no_sep _ _ hnohash, hUq,
        afterChar_append_sep _ _ _ hPq]
    have hgid : gidOf (pyStrip (shareUrlPlain i).data) = none := by
      unfold gidOf
      rw [hstrip, hquery]
      decide
    show String.mk (toCsvUrlCore (shareUrlPlain i).data) = exportUrlS i
    rw [toCsvUrlCore_of_docId hne hmarker hdoc, hgid]
    show String.mk (exportUrlOf i.data) = exportUrlS i
    have hout : (exportUrlS i).data = exportUrlOf i.data := by
      simp [exportUrlS, exportUrlOf, data_append, List.append_assoc]
    exact (congrArg String.mk hout).symm

/-- C8, witness: the canonical forms at a concrete identifier and
    selector. -/
theorem c8_canonical_share_links_witness :
    to_csv_url (shareUrlGid "1FIrtsAbC" "123") = exportUrlGidS "1FIrtsAbC" "123" ∧
      to_csv_url (shareUrlPlain "1FIrtsAbC") = exportUrlS "1FIrtsAbC" :=
  c8_canonical_share_links "1FIrtsAbC" "123" (by decide) (by decide)
    (by decide) (by decide) (by decide)

/-! ## Data model for the pandas pipeline -/

/-- A calendar date as produced by date parsing. -/
structure Date where
  year : ℕ
  month : ℕ
  day : ℕ
deriving DecidableEq, Repr

/-- Serial key used for chronological comparison; on parser-produced
    dates (`month ≤ 12`, `day ≤ 31`) it agrees with chronological order. -/
def Date.serial (d : Date) : ℕ :=
  d.year * 10000 + d.month * 100 + d.day

/-- An exact scaled-decimal number `man / 10 ^ exp`. Every numeric value
    this pipeline manipulates originates from a decimal numeral in the
    sheet, so this carrier represents all of them exactly using only
    integer arithmetic (whereas Python rounds to the nearest double; the
    decimal values the claims compare agree on both representations).
    `Dec.toRat` gives the rational value. -/
structure Dec where
  man : ℤ
  exp : ℕ
deriving DecidableEq, Repr

/-- Rational value of a scaled decimal. -/
def Dec.toRat (d : Dec) : ℚ :=
  (d.man : ℚ) / (10 : ℚ) ^ d.exp

/-- Strict negativity of the value: the denominator is a positive power
    of ten, so the value is negative exactly when the mantissa is. -/
def Dec.isNeg (d : Dec) : Bool :=
  decide (d.man < 0)

/-- Value comparison by cross-multiplication with the positive
    denominators. -/
def decLe (a b : Dec) : Prop :=
  a.man * (10 : ℤ) ^ b.exp ≤ b.man * (10 : ℤ) ^ a.exp

instance : DecidableRel decLe := fun a b =>
  inferInstanceAs (Decidable (a.man * (10 : ℤ) ^ b.exp ≤ b.man * (10 : ℤ) ^ a.exp))

instance : IsTotal Dec decLe :=
  ⟨fun a b => le_total (a.man * (10 : ℤ) ^ b.exp) (b.man * (10 : ℤ) ^ a.exp)⟩

instance : IsTrans Dec decLe := by
  constructor
  intro a b c h1 h2
  have hp : (0 : ℤ) < 10 ^ b.exp := by positivity
  apply Int.le_of_mul_le_mul_right ?_ hp
  calc a.man * 10 ^ c.exp * 10 ^ b.exp
      = (a.man * 10 ^ b.exp) * 10 ^ c.exp := by ring
    _ ≤ (b.man * 10 ^ a.exp) * 10 ^ c.exp :=
        mul_le_mul_of_nonneg_right h1 (by positivity)
    _ = (b.man * 10 ^ c.exp) * 10 ^ a.exp := by ring
    _ ≤ (c.man * 10 ^ b.exp) * 10 ^ a.exp :=
        mul_le_mul_of_nonneg_right h2 (by positivity)
    _ = c.man * 10 ^ a.exp * 10 ^ b.exp := by ring

/-- Mean of two values (pandas' even-length median): dividing a scaled
    decimal by two multiplies the mantissa by five and deepens the scale
    by one digit. -/
def Dec.avg (a b : Dec) : Dec :=
  ⟨5 * (a.man * (10 : ℤ) ^ b.exp + b.man * (10 : ℤ) ^ a.exp), a.exp + b.exp + 1⟩

/-- A pandas cell: missing (`NaN`/`NaT`/`pd.NA`), text, a parsed date, a
    number, or a boolean. -/
inductive Cell where
  | na : Cell
  | str : String → Cell
  | date : Date → Cell
  | num : Dec → Cell
  | bool : Bool → Cell
deriving DecidableEq, Repr

/-- pandas `isna` on a cell. -/
def Cell.isNA : Cell → Bool
  | .na => true
  | _ => false

/-- A DataFrame row: cells positionally aligned with the frame's headers. -/
abbrev Row := List Cell

/-- A DataFrame: ordered column labels plus rows. -/
structure Frame where
  headers : List String
  rows : List Row
deriving DecidableEq, Repr

/-- Positional access, reading past the row's end as missing. -/
def cellAt (r : Row) (idx : ℕ) : Cell :=
  r.getD idx Cell.na

/-- Index of a column label (first occurrence). -/
def Frame.colIdx (f : Frame) (h : String) : Option ℕ :=
  f.headers.indexOf? h

/-- Value of column `h` in row `r` of frame `f`. -/
def rowCell (f : Frame) (h : String) (r : Row) : Cell :=
  match f.colIdx h with
  | some i => cellAt r i
  | none => Cell.na

/-- Python `str(x)` on cell values as the pipeline stringifies them
    (raw tables only exercise the `na` and `str` cases; `str(nan)` is
    `"nan"`, and the remaining cases get fixed renderings that no
    claim exercises). -/
def pyStr : Cell → String
  | .na => "nan"
  | .str s => s
  | .date _ => "date"
  | .num _ => "number"
  | .bool b => if b then "True" else "False"

/-- Value of a digit string. -/
def digitsToNat (ds : List Char) : ℕ :=
  ds.foldl (fun n c => 10 * n + (c.toNat - 48)) 0

/-! ## Field derivation: dates, live depth, overflow flag -/

/-- Days per month, with leap years. -/
def daysInMonth (y m : ℕ) : ℕ :=
  if m = 2 then (if y % 4 = 0 ∧ (y % 100 ≠ 0 ∨ y % 400 = 0) then 29 else 28)
  else if m = 4 ∨ m = 6 ∨ m = 9 ∨ m = 11 then 30
  else 31

/-- Models `dateutil.parser.parse(text, dayfirst=True).date()` on the
    slash-separated numeric day/month/year format this sheet uses: the
    first component is the day and the second the month (roles swapped
    when the second cannot be a month but the first can, as dateutil
    resolves it); a year under 100 written with fewer than four digits is
    mapped into the 2000s (dateutil's century window around the current
    year agrees on this sheet's years). Other textual formats are outside
    the modelled scope and fail, degrading to `NaT` like any unparseable
    cell. -/
def pyDateParse (s : String) : Option Date :=
  match splitOnChar '/' (pyStrip s.data) with
  | [a, b, c] =>
    if a ≠ [] ∧ b ≠ [] ∧ c ≠ [] ∧ (a ++ b ++ c).all Char.isDigit then
      if 1 ≤ digitsToNat b ∧ digitsToNat b ≤ 12 then
        if 1 ≤ digitsToNat a ∧ digitsToNat a ≤
            daysInMonth (if digitsToNat c < 100 ∧ c.length < 4
              then 2000 + digitsToNat c else digitsToNat c) (digitsToNat b) then
          some ⟨if digitsToNat c < 100 ∧ c.length < 4
              then 2000 + digitsToNat c else digitsToNat c,
            digitsToNat b, digitsToNat a⟩
        else none
      else if 1 ≤ digitsToNat a ∧ digitsToNat a ≤ 12 then
        if 1 ≤ digitsToNat b ∧ digitsToNat b ≤
            daysInMonth (if digitsToNat c < 100 ∧ c.length < 4
              then 2000 + digitsToNat c else digitsToNat c) (digitsToNat a) then
          some ⟨if digitsToNat c < 100 ∧ c.length < 4
              then 2000 + digitsToNat c else digitsToNat c,
            digitsToNat a, digitsToNat b⟩
        else none
      else none
    else none
  | _ => none

/-- The row-level `parse_date` of `load_sheet` (src/app.py lines 96-100):
    `str(x)`, then the day-first parse, `NaT` (modelled `Cell.na`) on any
    failure. -/
def parse_date (x : Cell) : Cell :=
  match pyDateParse (pyStr x) with
  | some d => Cell.date d
  | none => Cell.na

/-- Does `\s*Ft` match at the head of the text (optional whitespace, then
    the case-sensitive unit token)? -/
def ftAfter (cs : List Char) : Bool :=
  match cs.dropWhile isPySpace with
  | 'F' :: 't' :: _ => true
  | _ => false

/-- Value of the matched numeral `ds.fs`, as `float(m.group(1))` reads
    it: the integer digits shifted past the fraction digits, over
    `10 ^ fs.length`. -/
def ratOfParts (neg : Bool) (ds fs : List Char) : Dec :=
  if neg then
    ⟨-((digitsToNat ds : ℤ) * (10 : ℤ) ^ fs.length + (digitsToNat fs : ℤ)),
      fs.length⟩
  else
    ⟨(digitsToNat ds : ℤ) * (10 : ℤ) ^ fs.length + (digitsToNat fs : ℤ),
      fs.length⟩

/-- Attempt to match `(-?\d+(?:\.\d+)?)\s*Ft` at this position, with the
    regex's greedy-then-backtrack treatment of the optional fraction. -/
def matchNumFtAt (cs : List Char) : Option Dec :=
  match cs with
  | '-' :: rest =>
    if rest.takeWhile Char.isDigit = [] then none
    else matchDigitsFt true (rest.takeWhile Char.isDigit)
      (rest.drop (rest.takeWhile Char.isDigit).length)
  | rest =>
    if rest.takeWhile Char.isDigit = [] then none
    else matchDigitsFt false (rest.takeWhile Char.isDigit)
      (rest.drop (rest.takeWhile Char.isDigit).length)
where
  matchDigitsFt (neg : Bool) (ds rest2 : List Char) : Option Dec :=
    match rest2 with
    | '.' :: r3 =>
      if r3.takeWhile Char.isDigit ≠ [] ∧
          ftAfter (r3.drop (r3.takeWhile Char.isDigit).length) then
        some (ratOfParts neg ds (r3.takeWhile Char.isDigit))
      else if ftAfter rest2 then some (ratOfParts neg ds []) else none
    | _ => if ftAfter rest2 then some (ratOfParts neg ds []) else none

/-- `re.search`: try each position left to right, take the first match. -/
def searchNumFt : List Char → Option Dec
  | [] => none
  | c :: rest =>
    match matchNumFtAt (c :: rest) with
    | some q => some q
    | none => searchNumFt rest

/-- `extract_live_ft` of `load_sheet` (src/app.py lines 109-113). -/
def extract_live_ft (s : Cell) : Option Dec :=
  if s.isNA then none
  else searchNumFt (pyStr s).data

/-- Exponent part of a Python float literal (`e`/`E`, optional sign,
    digits); `some 0` when absent, `none` when malformed. -/
def parseExp (r : List Char) : Option ℤ :=
  match r with
  | [] => some 0
  | 'e' :: r2 => parseExpDigits r2
  | 'E' :: r2 => parseExpDigits r2
  | _ => none
where
  parseExpDigits (r2 : List Char) : Option ℤ :=
    match r2 with
    | '+' :: r3 =>
      if r3.takeWhile Char.isDigit = [] ∨ r3.drop (r3.takeWhile Char.isDigit).length ≠ []
      then none else some (digitsToNat (r3.takeWhile Char.isDigit) : ℤ)
    | '-' :: r3 =>
      if r3.takeWhile Char.isDigit = [] ∨ r3.drop (r3.takeWhile Char.isDigit).length ≠ []
      then none else some (-(digitsToNat (r3.takeWhile Char.isDigit) : ℤ))
    | r3 =>
      if r3.takeWhile Char.isDigit = [] ∨ r3.drop (r3.takeWhile Char.isDigit).length ≠ []
      then none else some (digitsToNat (r3.takeWhile Char.isDigit) : ℤ)

/-- Python `float(text)` on finite decimal literals: surrounding
    whitespace tolerated, optional sign, `digits[.digits]`, `.digits`, or
    `digits.`, with an optional exponent; exact rational value (`inf`/
    `nan` words and digit underscores are outside the modelled scope and
    read as unparseable). -/
def parseFloat (l : List Char) : Option Dec :=
  parseSigned (pyStrip l)
where
  parseSigned (t : List Char) : Option Dec :=
    match t with
    | '+' :: r => parseMantissa false r
    | '-' :: r => parseMantissa true r
    | r => parseMantissa false r
  parseMantissa (neg : Bool) (r1 : List Char) : Option Dec :=
    match r1.drop (r1.takeWhile Char.isDigit).length with
    | '.' :: r3 =>
      if r1.takeWhile Char.isDigit = [] ∧ r3.takeWhile Char.isDigit = [] then none
      else
        match parseExp (r3.drop (r3.takeWhile Char.isDigit).length) with
        | some e =>
          some (applyExp
            (ratOfParts neg (r1.takeWhile Char.isDigit) (r3.takeWhile Char.isDigit))
            e)
        | none => none
    | r2 =>
      if r1.takeWhile Char.isDigit = [] then none
      else
        match parseExp r2 with
        | some e => some (applyExp (ratOfParts neg (r1.takeWhile Char.isDigit) []) e)
        | none => none
  applyExp (d : Dec) (e : ℤ) : Dec :=
    match e with
    | Int.ofNat n => ⟨d.man * (10 : ℤ) ^ n, d.exp⟩
    | Int.negSucc n => ⟨d.man, d.exp + (n + 1)⟩

/-- pandas `to_numeric(x, errors="coerce")` element-wise: coercion
    failures and missing values yield `NaN`, modelled `none`. -/
def cellToNumeric : Cell → Option Dec
  | .na => none
  | .str s => parseFloat s.data
  | .num q => some q
  | .bool b => some (if b then ⟨1, 0⟩ else ⟨0, 0⟩)
  | .date _ => none

/-- Element-level overflow flag, src/app.py line 122:
    `pd.to_numeric(cell, errors="coerce") < 0`, with pandas semantics
    `NaN < 0 = False`. -/
def spillFlag (c : Cell) : Bool :=
  match cellToNumeric c with
  | some q => q.isNeg
  | none => false

/-! ## The `load_sheet` pipeline -/

/-- Column assignment `df[h] = ...` computed per-row: overwrite in place
    when the label exists, else append the column on the right. -/
def setColBy (f : Frame) (h : String) (g : Row → Cell) : Frame :=
  match f.headers.indexOf? h with
  | some i => ⟨f.headers, f.rows.map fun r => r.set i (g r)⟩
  | none => ⟨f.headers ++ [h], f.rows.map fun r => r ++ [g r]⟩

/-- The fixed header rename mapping of `load_sheet` (src/app.py 80-92). -/
def renameMap : List (String × String) :=
  [("SR. No", "SR_No"), ("Name Of Dam", "Dam"), ("Top of Dam FT", "Top_FT"),
   ("H.F.L Ft", "HFL_FT"), ("D.S.L Ft", "DSL_FT"), ("N.P.L Ft", "NPL_FT"),
   ("P.P.L Ft", "PPL_FT"), ("Spill_Diff", "Spill_Diff"),
   ("Total Live Storage", "Live_Storage"), ("Status", "Status"),
   ("Date", "Date")]

/-- One header through the rename mapping (unmapped labels unchanged). -/
def applyRename (h : String) : String :=
  (renameMap.lookup h).getD h

/-- Header strip plus rename (src/app.py lines 79-93). -/
def normalizeHeaders (f : Frame) : Frame :=
  ⟨f.headers.map (fun h => applyRename (pyStripS h)), f.rows⟩

/-- Date-column parsing stage (src/app.py lines 102-103). -/
def parseDatesStage (f : Frame) : Frame :=
  setColBy f "Date" fun r => parse_date (rowCell f "Date" r)

/-- `LiveDepth_FT` derivation (src/app.py lines 115-118). -/
def addLiveStage (f : Frame) : Frame :=
  if "Status" ∈ f.headers then
    setColBy f "LiveDepth_FT" fun r =>
      match extract_live_ft (rowCell f "Status" r) with
      | some q => Cell.num q
      | none => Cell.na
  else setColBy f "LiveDepth_FT" fun _ => Cell.na

/-- `Is_Spilling` derivation (src/app.py lines 121-124). -/
def addSpillStage (f : Frame) : Frame :=
  if "Spill_Diff" ∈ f.headers then
    setColBy f "Is_Spilling" fun r =>
      Cell.bool (spillFlag (rowCell f "Spill_Diff" r))
  else setColBy f "Is_Spilling" fun _ => Cell.bool false

/-- ASCII lowercasing of one character. -/
def toLowerChar (c : Char) : Char :=
  if 'A' ≤ c ∧ c ≤ 'Z' then Char.ofNat (c.toNat + 32) else c

/-- ASCII lowercasing of a label, modelling Python's `str.lower()` on the
    ASCII column labels this sheet uses. -/
def lowerData (h : String) : List Char :=
  h.data.map toLowerChar

/-- Candidate entity-name column test: label contains both "name" and
    "dam" case-insensitively (src/app.py line 129). -/
def nameDamLike (h : String) : Bool :=
  containsSeq "name".data (lowerData h) && containsSeq "dam".data (lowerData h)

/-- Entity-name column resolution (src/app.py lines 127-133): keep an
    existing `Dam` column, else rename the first candidate, else add a
    `Dam` column filled with the placeholder `"Unknown"`. -/
def fixDamStage (f : Frame) : Frame :=
  if "Dam" ∈ f.headers then f
  else
    match (f.headers.filter nameDamLike).head? with
    | some c => ⟨f.headers.map fun h => if h = c then "Dam" else h, f.rows⟩
    | none => setColBy f "Dam" fun _ => Cell.str "Unknown"

/-- The pipeline up to (excluding) entity-name resolution. -/
def stageBeforeDam (t : Frame) : Frame :=
  addSpillStage (addLiveStage (parseDatesStage (normalizeHeaders t)))

/-- `load_sheet` (src/app.py lines 76-135), from the raw table (as parsed
    by the Raw Loader) to the enriched table. `none` models the
    `st.error` + empty-frame return taken when no `Date` column survives
    renaming; every other input yields an enriched frame. -/
def load_sheet (t : Frame) : Option Frame :=
  if "Date" ∈ (normalizeHeaders t).headers then
    some (fixDamStage (stageBeforeDam t))
  else none

/-! ## Views and aggregates (src/app.py lines 143-161) -/

/-- Date value of a row (`none` for `NaT` and non-date cells). -/
def dateOfRow (f : Frame) (r : Row) : Option Date :=
  match rowCell f "Date" r with
  | Cell.date d => some d
  | _ => none

/-- `df_day = df[df["Date"] == date_sel]` (line 149): rows of the
    selected date; `NaT` never equals a date, so undated rows are out. -/
def daySubset (f : Frame) (sel : Date) : List Row :=
  f.rows.filter fun r => dateOfRow f r == some sel

/-- Sort key for `sort_values("Date")`: chronological with missing dates
    last (pandas default `na_position="last"`). -/
def rowKey (f : Frame) (r : Row) : WithTop ℕ :=
  match dateOfRow f r with
  | some d => (d.serial : WithTop ℕ)
  | none => ⊤

/-- Row comparison by date key. -/
def rowLe (f : Frame) (r1 r2 : Row) : Prop :=
  rowKey f r1 ≤ rowKey f r2

instance (f : Frame) : DecidableRel (rowLe f) := fun r1 r2 =>
  inferInstanceAs (Decidable (rowKey f r1 ≤ rowKey f r2))

instance (f : Frame) : IsTotal Row (rowLe f) :=
  ⟨fun _ _ => le_total _ _⟩

instance (f : Frame) : IsTrans Row (rowLe f) :=
  ⟨fun _ _ _ h1 h2 => le_trans h1 h2⟩

/-- `df["Dam"] == dam_sel` on one cell (`NaN` and non-text cells compare
    unequal). -/
def damMatches (c : Cell) (s : String) : Bool :=
  match c with
  | Cell.str v => v = s
  | _ => false

/-- `df_view` (src/app.py lines 150-153): for a selected entity, that
    entity's rows across all dates sorted by date with missing dates
    last; otherwise the day subset. The model sorts with insertion sort;
    the claims proved below assert only sortedness and multiset equality,
    which hold equally of pandas' sort. -/
def dfView (f : Frame) (sel : Date) (damSel : String) : List Row :=
  if damSel = "All" then daySubset f sel
  else List.insertionSort (rowLe f)
    (f.rows.filter fun r => damMatches (rowCell f "Dam" r) damSel)

/-- `df_day['Dam'].nunique()` (line 157): distinct non-missing entity
    cells of the day subset. -/
def reportingCount (f : Frame) (sel : Date) : ℕ :=
  (((daySubset f sel).map fun r => rowCell f "Dam" r).filter
    fun c => !c.isNA).dedup.length

/-- `int(df_day['Is_Spilling'].sum())` (line 158): booleans sum as 0/1. -/
def overflowCount (f : Frame) (sel : Date) : ℕ :=
  ((daySubset f sel).map fun r => rowCell f "Is_Spilling" r).foldl
    (fun n c => n + (match c with | Cell.bool true => 1 | _ => 0)) 0

/-- Numeric value of a cell (for the live-depth column). -/
def cellNum : Cell → Option Dec
  | Cell.num q => some q
  | _ => none

/-- pandas `Series.median()` on the present values: sort ascending, the
    middle element for odd length, the mean of the two middles for even
    length, no value for an empty series. -/
def pandasMedian (xs : List Dec) : Option Dec :=
  if (List.insertionSort decLe xs).length = 0 then none
  else if (List.insertionSort decLe xs).length % 2 = 1 then
    (List.insertionSort decLe xs).get? ((List.insertionSort decLe xs).length / 2)
  else
    match (List.insertionSort decLe xs).get?
        ((List.insertionSort decLe xs).length / 2 - 1),
      (List.insertionSort decLe xs).get?
        ((List.insertionSort decLe xs).length / 2) with
    | some a, some b => some (Dec.avg a b)
    | _, _ => none

/-- `df_day["LiveDepth_FT"].dropna().median()`, with the `"—"` no-data
    marker modelled as `none` (src/app.py lines 159-160). -/
def medianLiveDepth (f : Frame) (sel : Date) : Option Dec :=
  pandasMedian (((daySubset f sel).map fun r =>
    rowCell f "LiveDepth_FT" r).filterMap cellNum)

/-- `int(df_day['LiveDepth_FT'].isna().sum())` (src/app.py line 161). -/
def noLiveCount (f : Frame) (sel : Date) : ℕ :=
  ((daySubset f sel).map fun r => rowCell f "LiveDepth_FT" r).countP Cell.isNA

/-! ## Claims C1, C5, C6, C7 -/

/-- Raw table of the C1 end-to-end example. -/
def c1Raw : Frame :=
  ⟨["Name Of Dam", "Date", "Status", "Spill_Diff"],
   [[Cell.str "Alpha", Cell.str "01/02/24", Cell.str "3.25 Ft Live",
     Cell.str "-1"]]⟩

/-- Enriched table the pipeline produces for `c1Raw` (the live depth
    `⟨325, 2⟩` is the exact value 3.25). -/
def c1Out : Frame :=
  ⟨["Dam", "Date", "Status", "Spill_Diff", "LiveDepth_FT", "Is_Spilling"],
   [[Cell.str "Alpha", Cell.date ⟨2024, 2, 1⟩, Cell.str "3.25 Ft Live",
     Cell.str "-1", Cell.num ⟨325, 2⟩, Cell.bool true]]⟩

/-- C1. The raw row with name "Alpha", date text "01/02/24", status
    "3.25 Ft Live" and spill differential "-1" is enriched to entity name
    "Alpha", the day-first date 2024-02-01 (day 1, month 2, year 2024),
    live depth 3.25 and overflow flag true. -/
theorem c1_end_to_end :
    load_sheet c1Raw = some c1Out ∧
    rowCell c1Out "Dam" (c1Out.rows.getD 0 []) = Cell.str "Alpha" ∧
    rowCell c1Out "Date" (c1Out.rows.getD 0 []) = Cell.date ⟨2024, 2, 1⟩ ∧
    rowCell c1Out "LiveDepth_FT" (c1Out.rows.getD 0 []) = Cell.num ⟨325, 2⟩ ∧
    Dec.toRat ⟨325, 2⟩ = (3.25 : ℚ) ∧
    rowCell c1Out "Is_Spilling" (c1Out.rows.getD 0 []) = Cell.bool true := by
  refine ⟨by decide, by decide, by decide, by decide, ?_, by decide⟩
  unfold Dec.toRat
  norm_num

/-- C7. Live-depth extraction returns the first optionally-signed decimal
    or integer number immediately followed (whitespace-tolerant) by the
    case-sensitive token "Ft": the claim's three examples, plus a
    first-match instance (the first number of "1x2 Ft tail 3 Ft" followed
    by "Ft" is 2), a signed instance, and a case-sensitivity instance
    ("ft" does not match). -/
theorem c7_live_depth_extraction :
    (extract_live_ft (Cell.str "9.80 Ft Live")).map Dec.toRat = some (9.80 : ℚ) ∧
    extract_live_ft (Cell.str "Dead") = none ∧
    extract_live_ft Cell.na = none ∧
    (extract_live_ft (Cell.str "-3 Ft")).map Dec.toRat = some (-3 : ℚ) ∧
    (extract_live_ft (Cell.str "1x2 Ft tail 3 Ft")).map Dec.toRat = some (2 : ℚ) ∧
    extract_live_ft (Cell.str "9.80 ft Live") = none := by
  refine ⟨?_, by decide, by decide, ?_, ?_, by decide⟩
  · rw [show extract_live_ft (Cell.str "9.80 Ft Live") = some ⟨980, 2⟩ from by decide,
      Option.map_some']
    unfold Dec.toRat
    norm_num
  · rw [show extract_live_ft (Cell.str "-3 Ft") = some ⟨-3, 0⟩ from by decide,
      Option.map_some']
    unfold Dec.toRat
    norm_num
  · rw [show extract_live_ft (Cell.str "1x2 Ft tail 3 Ft") = some ⟨2, 0⟩ from by decide,
      Option.map_some']
    unfold Dec.toRat
    norm_num

/-- A scaled decimal's value is negative exactly when its mantissa is. -/
theorem Dec.toRat_neg_iff (d : Dec) : d.toRat < 0 ↔ d.man < 0 := by
  unfold Dec.toRat
  rw [div_neg_iff]
  have hp : (0 : ℚ) < (10 : ℚ) ^ d.exp := by positivity
  constructor
  · rintro (⟨_, h2⟩ | ⟨h1, _⟩)
    · exact absurd h2 (not_lt.mpr hp.le)
    · exact_mod_cast h1
  · intro h
    right
    exact ⟨by exact_mod_cast h, hp⟩

/-- C6. The overflow flag is true exactly when the spill-differential
    cell coerces to a strictly negative number; -2.5 gives true, 0 gives
    false, a missing cell gives false, and non-numeric text gives false
    (treated as absent, not zero). -/
theorem c6_overflow_flag :
    (∀ c : Cell, spillFlag c = true ↔
      ∃ d : Dec, cellToNumeric c = some d ∧ d.toRat < 0) ∧
    spillFlag (Cell.str "-2.5") = true ∧
    spillFlag (Cell.str "0") = false ∧
    spillFlag Cell.na = false ∧
    spillFlag (Cell.str "N/A") = false := by
  refine ⟨?_, by decide, by decide, by decide, by decide⟩
  intro c
  unfold spillFlag
  cases h : cellToNumeric c with
  | none => simp
  | some q =>
    simp only [Option.some.injEq]
    constructor
    · intro hq
      refine ⟨q, rfl, ?_⟩
      rw [Dec.toRat_neg_iff]
      unfold Dec.isNeg at hq
      exact of_decide_eq_true hq
    · rintro ⟨d, rfl, hd⟩
      unfold Dec.isNeg
      rw [Dec.toRat_neg_iff] at hd
      exact decide_eq_true hd

/-- The two-column raw table of the C5 claim: an entity-name-like column
    (contains "name" and "dam" case-insensitively) and a Date column. -/
def c5Raw : Frame :=
  ⟨["Dam Name", "Date"], [[Cell.str "Alpha", Cell.str "05/01/24"]]⟩

/-- Normalized output for `c5Raw`. -/
def c5Out : Frame :=
  ⟨["Dam", "Date", "LiveDepth_FT", "Is_Spilling"],
   [[Cell.str "Alpha", Cell.date ⟨2024, 1, 5⟩, Cell.na, Cell.bool false]]⟩

/-- C5. Normalization fails (produces no table) exactly when no usable
    Date column exists after renaming; the two-column table with an
    entity-name-like column and a Date column normalizes without error
    into a table carrying both a Dam and a Date column. -/
theorem c5_date_mandatory :
    (∀ t : Frame, load_sheet t = none ↔ "Date" ∉ (normalizeHeaders t).headers) ∧
    load_sheet c5Raw = some c5Out ∧
    "Dam" ∈ c5Out.headers ∧ "Date" ∈ c5Out.headers := by
  refine ⟨?_, by decide, by decide, by decide⟩
  intro t
  unfold load_sheet
  by_cases h : "Date" ∈ (normalizeHeaders t).headers
  · simp [h]
  · simp [h]

/-! ## Claim C2 (entity-name guarantee) -/

/-- Row-width well-formedness: every row is as wide as the header list
    (tables parsed from CSV satisfy this). -/
def Frame.WF (f : Frame) : Prop :=
  ∀ r ∈ f.rows, r.length = f.headers.length

instance (f : Frame) : Decidable (Frame.WF f) :=
  inferInstanceAs (Decidable (∀ r ∈ f.rows, r.length = f.headers.length))

theorem setColBy_wf {f : Frame} (hw : Frame.WF f) (h : String) (g : Row → Cell) :
    Frame.WF (setColBy f h g) := by
  unfold setColBy
  cases hidx : f.headers.indexOf? h with
  | some i =>
    intro r hr
    simp only [List.mem_map] at hr
    obtain ⟨r0, hr0, rfl⟩ := hr
    simp [hw r0 hr0]
  | none =>
    intro r hr
    simp only [List.mem_map] at hr
    obtain ⟨r0, hr0, rfl⟩ := hr
    simp [hw r0 hr0]

theorem normalizeHeaders_wf {f : Frame} (hw : Frame.WF f) :
    Frame.WF (normalizeHeaders f) := by
  intro r hr
  unfold normalizeHeaders at hr ⊢
  simp only [List.length_map]
  exact hw r hr

theorem parseDatesStage_wf {f : Frame} (hw : Frame.WF f) :
    Frame.WF (parseDatesStage f) :=
  setColBy_wf hw _ _

theorem addLiveStage_wf {f : Frame} (hw : Frame.WF f) :
    Frame.WF (addLiveStage f) := by
  unfold addLiveStage
  by_cases h : "Status" ∈ f.headers
  · rw [if_pos h]; exact setColBy_wf hw _ _
  · rw [if_neg h]; exact setColBy_wf hw _ _

theorem addSpillStage_wf {f : Frame} (hw : Frame.WF f) :
    Frame.WF (addSpillStage f) := by
  unfold addSpillStage
  by_cases h : "Spill_Diff" ∈ f.headers
  · rw [if_pos h]; exact setColBy_wf hw _ _
  · rw [if_neg h]; exact setColBy_wf hw _ _

theorem stageBeforeDam_wf {t : Frame} (hw : Frame.WF t) :
    Frame.WF (stageBeforeDam t) :=
  addSpillStage_wf (addLiveStage_wf (parseDatesStage_wf (normalizeHeaders_wf hw)))

theorem dam_mem_fixDamStage (f : Frame) : "Dam" ∈ (fixDamStage f).headers := by
  unfold fixDamStage
  by_cases h : "Dam" ∈ f.headers
  · rw [if_pos h]; exact h
  · rw [if_neg h]
    cases hc : (f.headers.filter nameDamLike).head? with
    | some c =>
      have hcmem : c ∈ f.headers :=
        List.mem_of_mem_filter (List.mem_of_mem_head? (by rw [hc]; rfl))
      exact List.mem_map.mpr ⟨c, hcmem, by rw [if_pos rfl]⟩
    | none =>
      unfold setColBy
      rw [show f.headers.indexOf? "Dam" = none from
        List.indexOf?_eq_none_iff.mpr (fun x hx => by
          simp only [beq_iff_eq]
          rintro rfl
          exact h hx)]
      simp

theorem indexOf?_append_singleton {l : List String} {a : String} (h : a ∉ l) :
    (l ++ [a]).indexOf? a = some l.length := by
  induction l with
  | nil => simp [List.indexOf?_cons]
  | cons x xs ih =>
    have hx : ¬(x == a) = true := by
      simp only [beq_iff_eq]
      rintro rfl
      exact h (by simp)
    rw [List.cons_append, List.indexOf?_cons, if_neg hx,
      ih (fun hin => h (by simp [hin]))]
    rfl

/-- The raw table whose entity-name cell is missing: the claim asserts
    the enriched row still carries a non-empty entity-name string. -/
def c2Raw : Frame :=
  ⟨["Name Of Dam", "Date"], [[Cell.na, Cell.str "01/02/24"]]⟩

/-- Enriched output for `c2Raw`: the entity-name cell stays missing. -/
def c2Out : Frame :=
  ⟨["Dam", "Date", "LiveDepth_FT", "Is_Spilling"],
   [[Cell.na, Cell.date ⟨2024, 2, 1⟩, Cell.na, Cell.bool false]]⟩

/-- C2, counterexample. The pipeline normalizes the entity-name column
    label but never touches its cells: a row whose source entity-name
    cell is missing keeps a missing value, which is not a non-empty
    string. -/
theorem c2_nonempty_counterexample :
    load_sheet c2Raw = some c2Out ∧
    rowCell c2Out "Dam" (c2Out.rows.getD 0 []) = Cell.na ∧
    ¬ ∃ v : String, v ≠ "" ∧
      rowCell c2Out "Dam" (c2Out.rows.getD 0 []) = Cell.str v := by
  refine ⟨by decide, by decide, ?_⟩
  rintro ⟨v, hv, hcell⟩
  rw [show rowCell c2Out "Dam" (c2Out.rows.getD 0 []) = Cell.na from by decide]
    at hcell
  cases hcell

/-- C2, amended. After normalization the enriched table always carries a
    `Dam` (entity-name) column: an existing or fallback-renamed source
    column keeps its cell values (so a row whose source cell was empty or
    missing keeps that empty value), and only when no source column can
    be identified is the column synthesized, in which case every row
    holds the non-empty placeholder "Unknown". -/
theorem c2_entity_column (t : Frame) (hw : Frame.WF t) (f : Frame)
    (h : load_sheet t = some f) :
    "Dam" ∈ f.headers ∧
    (("Dam" ∉ (stageBeforeDam t).headers ∧
        (stageBeforeDam t).headers.filter nameDamLike = []) →
      ∀ r ∈ f.rows, rowCell f "Dam" r = Cell.str "Unknown") := by
  unfold load_sheet at h
  by_cases hd : "Date" ∈ (normalizeHeaders t).headers
  case neg => rw [if_neg hd] at h; cases h
  rw [if_pos hd] at h
  injection h with hf
  subst hf
  constructor
  · exact dam_mem_fixDamStage _
  · rintro ⟨hnd, hfilt⟩ r hr
    have hshape : fixDamStage (stageBeforeDam t) =
        ⟨(stageBeforeDam t).headers ++ ["Dam"],
          (stageBeforeDam t).rows.map fun r => r ++ [Cell.str "Unknown"]⟩ := by
      unfold fixDamStage
      rw [if_neg hnd, hfilt]
      show setColBy (stageBeforeDam t) "Dam" (fun _ => Cell.str "Unknown") = _
      unfold setColBy
      rw [show (stageBeforeDam t).headers.indexOf? "Dam" = none from
        List.indexOf?_eq_none_iff.mpr (fun x hx => by
          simp only [beq_iff_eq]
          rintro rfl
          exact hnd hx)]
    rw [hshape] at hr ⊢
    simp only [List.mem_map] at hr
    obtain ⟨r0, hr0, rfl⟩ := hr
    unfold rowCell Frame.colIdx cellAt
    rw [show (⟨(stageBeforeDam t).headers ++ ["Dam"],
        (stageBeforeDam t).rows.map fun r => r ++ [Cell.str "Unknown"]⟩ :
          Frame).headers = (stageBeforeDam t).headers ++ ["Dam"] from rfl]
    rw [indexOf?_append_singleton hnd]
    have hlen : r0.length = (stageBeforeDam t).headers.length :=
      stageBeforeDam_wf hw r0 hr0
    show (r0 ++ [Cell.str "Unknown"]).getD (stageBeforeDam t).headers.length
      Cell.na = Cell.str "Unknown"
    rw [← hlen, List.getD_append_right _ _ _ _ (le_refl _), Nat.sub_self]
    rfl

/-- Witness input: no entity-name-like column at all, so the placeholder
    path fires. -/
def c2wRaw : Frame :=
  ⟨["X", "Date"], [[Cell.str "a", Cell.str "1/1/24"]]⟩

/-- Enriched output for `c2wRaw`. -/
def c2wOut : Frame :=
  ⟨["X", "Date", "LiveDepth_FT", "Is_Spilling", "Dam"],
   [[Cell.str "a", Cell.date ⟨2024, 1, 1⟩, Cell.na, Cell.bool false,
     Cell.str "Unknown"]]⟩

/-- C2, witness: the amended theorem applied at a concrete table,
    discharging every hypothesis. -/
theorem c2_entity_column_witness :
    "Dam" ∈ c2wOut.headers ∧
    (∀ r ∈ c2wOut.rows, rowCell c2wOut "Dam" r = Cell.str "Unknown") := by
  have h := c2_entity_column c2wRaw (by decide) c2wOut (by decide)
  exact ⟨h.1, h.2 (by decide)⟩

/-! ## Claim C3 (entity series) -/

/-- C3. With a specific entity selected, the view is exactly that
    entity's rows (a permutation of the filtered table) arranged in
    date-sorted order, where the ordering places every dated row
    chronologically and every row with an absent date after all dated
    rows (absent dates take the top key, so they are excluded from the
    chronological portion of the sort); with no specific entity selected
    the view equals the day subset. -/
theorem c3_entity_series (f : Frame) (sel : Date) (damSel : String) :
    (damSel ≠ "All" →
      (dfView f sel damSel).Perm
          (f.rows.filter fun r => damMatches (rowCell f "Dam" r) damSel) ∧
        (dfView f sel damSel).Sorted (rowLe f)) ∧
    dfView f sel "All" = daySubset f sel := by
  constructor
  · intro hne
    unfold dfView
    rw [if_neg hne]
    exact ⟨List.perm_insertionSort _ _, List.sorted_insertionSort _ _⟩
  · unfold dfView
    rw [if_pos rfl]

/-- Concrete enriched-style frame for the C3 witness: entity "B" has
    rows on two dates plus an undated row. -/
def c3F : Frame :=
  ⟨["Dam", "Date"],
   [[Cell.str "B", Cell.date ⟨2024, 1, 2⟩],
    [Cell.str "B", Cell.na],
    [Cell.str "A", Cell.date ⟨2024, 1, 1⟩],
    [Cell.str "B", Cell.date ⟨2024, 1, 1⟩]]⟩

/-- C3, witness: the theorem applied at a concrete frame and entity. -/
theorem c3_entity_series_witness :
    (dfView c3F ⟨2024, 1, 1⟩ "B").Perm
        (c3F.rows.filter fun r => damMatches (rowCell c3F "Dam" r) "B") ∧
      (dfView c3F ⟨2024, 1, 1⟩ "B").Sorted (rowLe c3F) :=
  (c3_entity_series c3F ⟨2024, 1, 1⟩ "B").1 (by decide)

/-! ## Claim C9 (summary aggregation) -/

theorem foldl_add_boolCount (l : List Cell) : ∀ n : ℕ,
    l.foldl (fun n c => n + (match c with | Cell.bool true => 1 | _ => 0)) n =
      n + l.countP (fun c => c == Cell.bool true) := by
  induction l with
  | nil => intro n; simp [List.countP_nil]
  | cons c cs ih =>
    intro n
    rw [List.foldl_cons, ih, List.countP_cons]
    rcases c with _ | s | d | q | b
    · simp
    · simp
    · simp
    · simp
    · cases b
      · simp
      · simp
        omega

theorem overflowCount_eq (f : Frame) (sel : Date) :
    overflowCount f sel =
      ((daySubset f sel).filter fun r =>
        rowCell f "Is_Spilling" r == Cell.bool true).length := by
  unfold overflowCount
  rw [foldl_add_boolCount _ 0, Nat.zero_add, List.countP_map,
    List.countP_eq_length_filter]
  rfl

theorem noLiveCount_eq (f : Frame) (sel : Date) :
    noLiveCount f sel =
      ((daySubset f sel).filter fun r =>
        (rowCell f "LiveDepth_FT" r).isNA).length := by
  unfold noLiveCount
  rw [List.countP_map, List.countP_eq_length_filter]
  rfl

theorem reportingCount_eq (f : Frame) (sel : Date) :
    reportingCount f sel =
      (((daySubset f sel).map fun r => rowCell f "Dam" r).filter
        fun c => !c.isNA).toFinset.card := by
  unfold reportingCount
  rw [List.card_toFinset]

theorem pandasMedian_eq_none_iff (xs : List Dec) :
    pandasMedian xs = none ↔ xs = [] := by
  unfold pandasMedian
  have hlen : (List.insertionSort decLe xs).length = xs.length :=
    (List.perm_insertionSort decLe xs).length_eq
  constructor
  · intro h
    by_cases h0 : (List.insertionSort decLe xs).length = 0
    · rw [hlen] at h0
      exact List.length_eq_zero.mp h0
    · exfalso
      rw [if_neg h0] at h
      by_cases h1 : (List.insertionSort decLe xs).length % 2 = 1
      · rw [if_pos h1] at h
        rw [List.get?_eq_none] at h
        omega
      · rw [if_neg h1] at h
        cases hg1 : (List.insertionSort decLe xs).get?
            ((List.insertionSort decLe xs).length / 2 - 1) with
        | none =>
          rw [List.get?_eq_none] at hg1
          omega
        | some a =>
          cases hg2 : (List.insertionSort decLe xs).get?
              ((List.insertionSort decLe xs).length / 2) with
          | none =>
            rw [List.get?_eq_none] at hg2
            omega
          | some b =>
            rw [hg1, hg2] at h
            cases h
  · intro h
    subst h
    rfl

theorem medianLiveDepth_eq_none_iff (f : Frame) (sel : Date) :
    medianLiveDepth f sel = none ↔
      ((daySubset f sel).map fun r =>
        rowCell f "LiveDepth_FT" r).filterMap cellNum = [] := by
  unfold medianLiveDepth
  exact pandasMedian_eq_none_iff _

/-- Day-subset frame for the C9 example: three rows on one date with
    live depths 4.0, absent, 6.0, one of them overflowing. -/
def c9F : Frame :=
  ⟨["Dam", "Date", "LiveDepth_FT", "Is_Spilling"],
   [[Cell.str "A", Cell.date ⟨2024, 1, 1⟩, Cell.num ⟨4, 0⟩, Cell.bool false],
    [Cell.str "B", Cell.date ⟨2024, 1, 1⟩, Cell.na, Cell.bool false],
    [Cell.str "C", Cell.date ⟨2024, 1, 1⟩, Cell.num ⟨6, 0⟩, Cell.bool true]]⟩

/-- C9. On the concrete day subset with live depths [4.0, absent, 6.0]
    the median is 5.0 and the no-live count is 1 (and the distinct-entity
    and overflow counts are 3 and 1); in general the reporting count is
    the number of distinct present entity cells of the day subset, the
    overflow count is the number of rows with the overflow flag true, the
    no-live count is the number of rows with an absent live depth, and
    the median is the no-data marker exactly when no live-depth value is
    present. -/
theorem c9_summary :
    (medianLiveDepth c9F ⟨2024, 1, 1⟩).map Dec.toRat = some (5 : ℚ) ∧
    noLiveCount c9F ⟨2024, 1, 1⟩ = 1 ∧
    reportingCount c9F ⟨2024, 1, 1⟩ = 3 ∧
    overflowCount c9F ⟨2024, 1, 1⟩ = 1 ∧
    (∀ (f : Frame) (sel : Date),
      reportingCount f sel =
        (((daySubset f sel).map fun r => rowCell f "Dam" r).filter
          fun c => !c.isNA).toFinset.card ∧
      overflowCount f sel =
        ((daySubset f sel).filter fun r =>
          rowCell f "Is_Spilling" r == Cell.bool true).length ∧
      noLiveCount f sel =
        ((daySubset f sel).filter fun r =>
          (rowCell f "LiveDepth_FT" r).isNA).length ∧
      (medianLiveDepth f sel = none ↔
        ((daySubset f sel).map fun r =>
          rowCell f "LiveDepth_FT" r).filterMap cellNum = [])) := by
  refine ⟨?_, by decide, by decide, by decide, fun f sel =>
    ⟨reportingCount_eq f sel, overflowCount_eq f sel, noLiveCount_eq f sel,
      medianLiveDepth_eq_none_iff f sel⟩⟩
  rw [show medianLiveDepth c9F ⟨2024, 1, 1⟩ = some ⟨50, 1⟩ from by decide,
    Option.map_some']
  unfold Dec.toRat
  norm_num

end SmallDams
